import Mathlib

/-!
# Dual-source server resolution of the hcloud cloud controller manager

A shallow embedding of `hcloud/util.go` and of the Robot inventory parts of
`hcloud/cloud.go`.

* Go `string` values are Lean `String`s; the byte-level library routines used by
  the program (`strings.HasPrefix`, `strings.ReplaceAll`, `strings.Split`,
  `strings.ToLower`, `strconv.Atoi`) are written over the character list of the
  string.  Every byte these routines test for (`'-'`, `'+'`, `'0'..'9'`, letters,
  the bytes of `"hcloud://"`) is ASCII, and a character outside ASCII is encoded by
  bytes `≥ 0x80` only, so the byte loops of the library and the character loops
  below take the same branches.  Lengths that the library measures in bytes are
  measured in bytes here as well (`byteLen`).
* Go `int` is the 64 bit integer of the platforms the controller is built for; it is
  an `Int` here, with the wrap-around of the library written out where it can occur.
* A Go pointer that may be `nil` is an `Option`; a Go `(value, error)` result is a
  pair whose second component is `none` for a `nil` error.
* The package level variable `hrobotServers` is passed explicitly.
-/

namespace Hcloud

/-! ## Errors -/

/-- Go `error` values that reach this package.  Two values are equal exactly when
Go's `==` on the interface values holds, so the sentinel is a constructor of its own
and an error made by `fmt.Errorf` is never equal to it. -/
inductive GoError where
  /-- The package variable `cloudprovider.InstanceNotFound`. -/
  | InstanceNotFound : GoError
  /-- An error produced by one of the API clients, with its message. -/
  | api (msg : String) : GoError
  /-- The value of `fmt.Errorf("%s: %w", op, err)`. -/
  | wrapf (op : String) (err : GoError) : GoError
  /-- The value of `fmt.Errorf(format, ...)` without `%w`, with the formatted message. -/
  | errorf (msg : String) : GoError
  deriving DecidableEq, Repr

namespace GoError

/-- The method `Error()` of a Go error: its message. -/
def Error : GoError → String
  | InstanceNotFound => "instance not found"
  | api msg => msg
  | wrapf op err => op ++ ": " ++ err.Error
  | errorf msg => msg

/-- The function `errors.Unwrap`. -/
def Unwrap : GoError → Option GoError
  | wrapf _ err => some err
  | _ => none

end GoError

/-! ## Data model -/

/-- Go `net.IP`, a byte slice; the `nil` slice is the empty list. -/
abbrev IP := List Nat

/-- The type `hcloud.Location`, with the fields this package sets. -/
structure Location where
  Name : String
  NetworkZone : String
  deriving DecidableEq, Repr

/-- The type `hcloud.Datacenter`, with the fields this package sets. -/
structure Datacenter where
  Name : String
  Location : Option Location
  deriving DecidableEq, Repr

/-- The type `hcloud.ServerType`, with the field this package sets. -/
structure ServerType where
  Name : String
  deriving DecidableEq, Repr

/-- The type `hcloud.Server`, with the fields this package sets; `PublicNetIPv4IP` is
the field `PublicNet.IPv4.IP`. -/
structure Server where
  ID : Int
  Name : String
  PublicNetIPv4IP : IP
  ServerType : Option ServerType
  Status : String
  Datacenter : Option Datacenter
  deriving DecidableEq, Repr

/-- The constant `hcloud.NetworkZoneEUCentral`. -/
def NetworkZoneEUCentral : String := "eu-central"

/-- The struct `HrobotServer` of `cloud.go`. -/
structure HrobotServer where
  ID : Int
  Name : String
  /-- The field `Type`, a reserved word here. -/
  Typ : String
  Zone : String
  Region : String
  IP : IP
  deriving DecidableEq, Repr

/-- The fields of `models.Server` of the Robot client that `readHrobotServers` reads. -/
structure RobotServer where
  ServerIP : String
  ServerNumber : Int
  ServerName : String
  Product : String
  Dc : String
  deriving DecidableEq, Repr

/-- The calls of `commonClient` made by the resolver: `c.Hcloud.Server.GetByName` and
`c.Hcloud.Server.GetByID`, each giving the `(server, err)` of the call. -/
structure commonClient where
  GetByName : String → Option Server × Option GoError
  GetByID : Int → Option Server × Option GoError

/-! ## Resolver (`util.go`) -/

/-- The function `hrobotGetServerByName`: the first record of `hrobotServers` with the
given name, as an `hcloud.Server`. -/
def hrobotGetServerByName (hrobotServers : List HrobotServer) (name : String) :
    Option Server × Option GoError :=
  match hrobotServers with
  | [] => (none, none)
  | s :: rest =>
    if s.Name = name then
      (some { ID := s.ID
              Name := s.Name
              PublicNetIPv4IP := s.IP
              ServerType := some { Name := s.Typ }
              Status := "running"
              Datacenter := some { Location := some { Name := s.Zone, NetworkZone := "" }
                                   Name := s.Region } },
       none)
    else hrobotGetServerByName rest name

/-- The function `hrobotGetServerByID`: the first record of `hrobotServers` with the
given number, as an `hcloud.Server`. -/
def hrobotGetServerByID (hrobotServers : List HrobotServer) (id : Int) :
    Option Server × Option GoError :=
  match hrobotServers with
  | [] => (none, none)
  | s :: rest =>
    if s.ID = id then
      (some { ID := s.ID
              Name := s.Name
              PublicNetIPv4IP := s.IP
              ServerType := some { Name := s.Typ }
              Status := "running"
              Datacenter := some { Location := some { Name := s.Zone
                                                      NetworkZone := NetworkZoneEUCentral }
                                   Name := s.Region } },
       none)
    else hrobotGetServerByID rest id

/-- The function `getServerByName`. -/
def getServerByName (c : commonClient) (hrobotServers : List HrobotServer) (name : String) :
    Option Server × Option GoError :=
  let op := "hcloud/getServerByName"
  match c.GetByName name with
  | (_, some err) => (none, some (GoError.wrapf op err))
  | (some server, none) => (some server, none)
  | (none, none) =>
    match hrobotGetServerByName hrobotServers name with
    | (none, _) => (none, some GoError.InstanceNotFound)
    | (some server, _) => (some server, none)

/-- The function `getServerByID`. -/
def getServerByID (c : commonClient) (hrobotServers : List HrobotServer) (id : Int) :
    Option Server × Option GoError :=
  let op := "hcloud/getServerByName"
  match c.GetByID id with
  | (_, some err) => (none, some (GoError.wrapf op err))
  | (some server, none) => (some server, none)
  | (none, none) =>
    match hrobotGetServerByID hrobotServers id with
    | (none, _) => (none, some GoError.InstanceNotFound)
    | (some server, _) => (some server, none)

/-! ## Library routines (`strings`, `strconv`, `os`) -/

/-- Length in bytes of a string given by its characters, Go's `len(s)`. -/
def byteLen (s : List Char) : Nat := (s.map Char.utf8Size).sum

/-- The function `strings.HasPrefix`. -/
def HasPrefix (s pre : List Char) : Bool := pre.isPrefixOf s

/-- The scan of `strings.Replace` for a non-empty `old` and no limit: `skip` counts
the characters of a matched occurrence of `old` still to be passed over. -/
def replaceScan (old new : List Char) : Nat → List Char → List Char
  | _, [] => []
  | skip + 1, _ :: cs => replaceScan old new skip cs
  | 0, c :: cs =>
    if old.isPrefixOf (c :: cs) then new ++ replaceScan old new (old.length - 1) cs
    else c :: replaceScan old new 0 cs

/-- The function `strings.ReplaceAll` for a non-empty `old`: every non-overlapping
occurrence of `old`, found from the left, is replaced by `new`. -/
def ReplaceAll (s old new : List Char) : List Char := replaceScan old new 0 s

/-- The function `strings.Split` for a separator of one byte: the pieces of `s`
between the occurrences of `sep`; there is always at least one piece. -/
def Split : List Char → Char → List (List Char)
  | [], _ => [[]]
  | c :: cs, sep =>
    if c = sep then [] :: Split cs sep
    else
      match Split cs sep with
      | [] => [[c]]
      | piece :: pieces => (c :: piece) :: pieces

/-- The function `unicode.ToLower`: below `0x80` the letters `A`..`Z` are moved to
`a`..`z` and every other character is kept; from `0x80` on the case table of the
library, a parameter here, decides. -/
def unicodeToLower (caseTable : Char → Char) (r : Char) : Char :=
  if r.toNat < 128 then
    if 'A'.toNat ≤ r.toNat ∧ r.toNat ≤ 'Z'.toNat then Char.ofNat (r.toNat + ('a'.toNat - 'A'.toNat))
    else r
  else caseTable r

/-- The function `strings.ToLower`. -/
def ToLower (caseTable : Char → Char) (s : List Char) : List Char :=
  s.map (unicodeToLower caseTable)

/-- The two errors of `strconv`: `ErrSyntax` and `ErrRange`. -/
inductive NumError where
  | ErrSyntax : NumError
  | ErrRange : NumError
  deriving DecidableEq, Repr

/-- Conversion of an integer to Go's `int64`, with wrap-around. -/
def toInt64 (x : Int) : Int := (x + 2 ^ 63) % 2 ^ 64 - 2 ^ 63

/-- Conversion of a natural number to Go's `uint64`, with wrap-around. -/
def toUint64 (x : Nat) : Nat := x % 2 ^ 64

/-- The constant `maxUint64` of `strconv`. -/
def maxUint64 : Nat := 2 ^ 64 - 1

/-- The helper `lower` of `strconv`: `c | ('x' - 'X')` on the byte `c`. -/
def lowerByte (c : Nat) : Nat := c ||| ('x'.toNat - 'X'.toNat)

/-- The digit loop of `strconv.ParseUint` at base 10 and bit size 64 (the arguments
that `Atoi` passes through `ParseInt`); `n` is the value read so far. -/
def parseUintLoop : Nat → List Char → Nat × Option NumError
  | n, [] => (n, none)
  | n, c :: cs =>
    let cutoff := maxUint64 / 10 + 1
    let maxVal := 2 ^ 64 - 1
    let digit : Option Nat :=
      if '0'.toNat ≤ c.toNat ∧ c.toNat ≤ '9'.toNat then some (c.toNat - '0'.toNat)
      else if c.toNat < 128 ∧ 'a'.toNat ≤ lowerByte c.toNat ∧ lowerByte c.toNat ≤ 'z'.toNat then
        some (lowerByte c.toNat - 'a'.toNat + 10)
      else none
    match digit with
    | none => (0, some NumError.ErrSyntax)
    | some d =>
      if d ≥ 10 then (0, some NumError.ErrSyntax)
      else if n ≥ cutoff then (maxVal, some NumError.ErrRange)
      else
        let n10 := toUint64 (n * 10)
        let n1 := toUint64 (n10 + d)
        if n1 < n10 ∨ n1 > maxVal then (maxVal, some NumError.ErrRange)
        else parseUintLoop n1 cs

/-- The function `strconv.ParseUint(s, 10, 0)`. -/
def ParseUint (s : List Char) : Nat × Option NumError :=
  if s = [] then (0, some NumError.ErrSyntax) else parseUintLoop 0 s

/-- The function `strconv.ParseInt(s, 10, 0)`. -/
def ParseInt (s : List Char) : Int × Option NumError :=
  match s with
  | [] => (0, some NumError.ErrSyntax)
  | c :: cs =>
    let neg := decide (c = '-')
    let body := if c = '+' then cs else if c = '-' then cs else c :: cs
    match ParseUint body with
    | (_, some NumError.ErrSyntax) => (0, some NumError.ErrSyntax)
    | (un, err) =>
      let cutoff : Nat := 2 ^ 63
      if !neg ∧ un ≥ cutoff then ((cutoff : Int) - 1, some NumError.ErrRange)
      else if neg ∧ un > cutoff then (-(cutoff : Int), some NumError.ErrRange)
      else
        let n := toInt64 un
        (if neg then toInt64 (-n) else n, err)

/-- The digit loop of the fast path of `strconv.Atoi`. -/
def atoiFastLoop : Int → List Char → Option Int
  | n, [] => some n
  | n, ch :: rest =>
    if '0'.toNat ≤ ch.toNat ∧ ch.toNat ≤ '9'.toNat then
      atoiFastLoop (toInt64 (n * 10 + ((ch.toNat - '0'.toNat : Nat) : Int))) rest
    else none

/-- The function `strconv.Atoi` for a 64 bit `int`. -/
def Atoi (s : List Char) : Int × Option NumError :=
  if 0 < byteLen s ∧ byteLen s < 19 then
    match s with
    | [] => (0, some NumError.ErrSyntax)
    | c :: cs =>
      let body := if c = '-' ∨ c = '+' then cs else c :: cs
      if body.length < 1 then (0, some NumError.ErrSyntax)
      else
        match atoiFastLoop 0 body with
        | none => (0, some NumError.ErrSyntax)
        | some n => (if c = '-' then toInt64 (-n) else n, none)
  else ParseInt s

/-- The function `os.Getenv` over an environment: the value of the variable, or the
empty string when it is not set. -/
def Getenv (env : String → Option String) (key : String) : String := (env key).getD ""

/-! ## Provider identifier (`util.go`) -/

/-- The constant `providerName`. -/
def providerName : String := "hcloud"

/-- The function `providerIDToServerID`. -/
def providerIDToServerID (providerID : String) : Int × Option GoError :=
  let op := "hcloud/providerIDToServerID"
  let providerPrefix := providerName ++ "://"
  if !HasPrefix providerID.data providerPrefix.data then
    (0, some (GoError.errorf (op ++ ": missing prefix hcloud://: " ++ providerID)))
  else
    let idString := ReplaceAll providerID.data providerPrefix.data []
    if idString = [] then
      (0, some (GoError.errorf (op ++ ": missing serverID: " ++ providerID)))
    else
      match Atoi idString with
      | (_, some _) => (0, some (GoError.errorf (op ++ ": invalid serverID: " ++ providerID)))
      | (id, none) => (id, none)

/-! ## Robot inventory (`cloud.go`) -/

/-- The constant `hrobotPeriodENVVar`. -/
def hrobotPeriodENVVar : String := "HROBOT_PERIOD"

/-- The initial value of the package variable `hrobotPeriod`. -/
def hrobotPeriod : Int := 180

/-- The part of `newCloud` that sets `hrobotPeriod` from the environment: the value of
the variable after it. -/
def newCloud_hrobotPeriod (env : String → Option String) : Int :=
  let period := Getenv env hrobotPeriodENVVar
  if period = "" then 180 else (Atoi period.data).1

/-- Library functions that `readHrobotServers` calls and that are given from outside:
the case table of `unicode.ToLower` beyond ASCII and `net.ParseIP`. -/
structure Externals where
  caseTable : Char → Char
  ParseIP : String → IP

/-- The record that the body of the `range` loop of `readHrobotServers` builds from one
server of the listing; `none` stands for the run-time failure of the index expression
`strings.Split(s.Dc, "-")[0]`. -/
def hrobotServerOf (ext : Externals) (s : RobotServer) : Option HrobotServer :=
  match (Split s.Dc.data '-')[0]? with
  | none => none
  | some first =>
    let zone := String.mk (ToLower ext.caseTable first)
    some { ID := s.ServerNumber
           Name := s.ServerName
           Typ := s.Product
           Zone := zone
           Region := String.mk (ToLower ext.caseTable s.Dc.data)
           IP := ext.ParseIP s.ServerIP }

/-- The `range` loop of `readHrobotServers` over the listing, appending to `hservers`. -/
def collectServers (ext : Externals) :
    List RobotServer → List HrobotServer → Option (List HrobotServer)
  | [], hservers => some hservers
  | s :: rest, hservers =>
    match hrobotServerOf ext s with
    | none => none
    | some server => collectServers ext rest (hservers ++ [server])

/-- One cycle of the loop of `readHrobotServers`: `listing` is the `(servers, err)` that
`hrobot.ServerGetList()` gave, the last argument the package variable `hrobotServers`
before the cycle; the result is the package variable after the cycle.  The error is
written to the log only; the sleep that ends the cycle does not change the variable. -/
def readHrobotServers (ext : Externals) (listing : List RobotServer × Option GoError)
    (_hrobotServers : List HrobotServer) : Option (List HrobotServer) :=
  collectServers ext listing.1 []

/-! ## Decimal numerals -/

/-- The byte `c` is one of `'0'`..`'9'`. -/
abbrev IsDigit (c : Char) : Prop := '0'.toNat ≤ c.toNat ∧ c.toNat ≤ '9'.toNat

/-- Value of a run of decimal digits read from the left, with `n` the value of the
digits before it. -/
def digitsValueFrom : List Char → Nat → Nat
  | [], n => n
  | c :: cs, n => digitsValueFrom cs (n * 10 + (c.toNat - '0'.toNat))

/-- Value of a run of decimal digits. -/
def digitsValue (digits : List Char) : Nat := digitsValueFrom digits 0

/-- The string `s` is a decimal integer numeral with value `v`: an optional sign `+` or
`-` followed by a non-empty run of decimal digits. -/
def IsDecimalInt (s : List Char) (v : Int) : Prop :=
  ∃ sign digits : List Char, s = sign ++ digits ∧
    (sign = [] ∨ sign = ['+'] ∨ sign = ['-']) ∧
    digits ≠ [] ∧ (∀ c ∈ digits, IsDigit c) ∧
    v = if sign = ['-'] then -(digitsValue digits : Int) else (digitsValue digits : Int)

/-- The value `v` fits Go's 64 bit `int`. -/
def FitsInt (v : Int) : Prop := -(2 : Int) ^ 63 ≤ v ∧ v < (2 : Int) ^ 63

/-! ## Concrete inputs used by the evaluations below -/

/-- A primary source that knows no server and reports no error. -/
def absentClient : commonClient :=
  { GetByName := fun _ => (none, none), GetByID := fun _ => (none, none) }

/-- A primary source whose calls fail with the error `e`. -/
def failingClient (e : GoError) : commonClient :=
  { GetByName := fun _ => (none, some e), GetByID := fun _ => (none, some e) }

/-- A record of the Robot inventory. -/
def sampleRecord : HrobotServer :=
  { ID := 321, Name := "bm-1", Typ := "EX41", Zone := "fsn1", Region := "fsn1-dc8",
    IP := [10, 0, 0, 7] }

/-- A second record, with the name of `sampleRecord` and another number. -/
def shadowedRecord : HrobotServer :=
  { ID := 654, Name := "bm-1", Typ := "AX101", Zone := "hel1", Region := "hel1-dc2",
    IP := [10, 0, 0, 8] }

/-- The `hcloud.Server` that both cache scans build from a record, up to the network
zone of its location. -/
def serverOfRecord (networkZone : String) (s : HrobotServer) : Server :=
  { ID := s.ID
    Name := s.Name
    PublicNetIPv4IP := s.IP
    ServerType := some { Name := s.Typ }
    Status := "running"
    Datacenter := some { Location := some { Name := s.Zone, NetworkZone := networkZone }
                         Name := s.Region } }

/-! ## The cache scans -/

theorem hrobotGetServerByName_eq_find (cache : List HrobotServer) (name : String) :
    hrobotGetServerByName cache name =
      ((cache.find? (fun s => decide (s.Name = name))).map (serverOfRecord ""), none) := by
  induction cache with
  | nil => rfl
  | cons s rest ih =>
    by_cases h : s.Name = name
    · simp [hrobotGetServerByName, List.find?, h, serverOfRecord]
    · simp [hrobotGetServerByName, List.find?, h, ih]

theorem hrobotGetServerByID_eq_find (cache : List HrobotServer) (id : Int) :
    hrobotGetServerByID cache id =
      ((cache.find? (fun s => decide (s.ID = id))).map (serverOfRecord NetworkZoneEUCentral),
        none) := by
  induction cache with
  | nil => rfl
  | cons s rest ih =>
    by_cases h : s.ID = id
    · simp [hrobotGetServerByID, List.find?, h, serverOfRecord]
    · simp [hrobotGetServerByID, List.find?, h, ih]

theorem find_none_of_no_match {p : HrobotServer → Prop} [DecidablePred p]
    (cache : List HrobotServer) (h : ∀ s ∈ cache, ¬ p s) :
    cache.find? (fun s => decide (p s)) = none := by
  simp only [List.find?_eq_none, decide_eq_true_eq]
  exact h

/-! ## Resolver: fallback to the cache -/

/-- C3: when the primary source reports no server and no error for the key, and the
snapshot holds a record with that name (resp. number), `getServerByName` (resp.
`getServerByID`) returns a server with a nil error, and the number, name, type, zone,
region and address of that server are those of the first matching record of the
snapshot. -/
theorem getServer_found_in_cache (c : commonClient) (cache : List HrobotServer) :
    (∀ (n : String) (r : HrobotServer), c.GetByName n = (none, none) →
      cache.find? (fun s => decide (s.Name = n)) = some r →
      ∃ srv, getServerByName c cache n = (some srv, none) ∧
        srv.ID = r.ID ∧ srv.Name = r.Name ∧
        srv.ServerType.map (fun t => t.Name) = some r.Typ ∧
        (srv.Datacenter.bind (fun d => d.Location)).map (fun l => l.Name) = some r.Zone ∧
        srv.Datacenter.map (fun d => d.Name) = some r.Region ∧
        srv.PublicNetIPv4IP = r.IP) ∧
    (∀ (i : Int) (r : HrobotServer), c.GetByID i = (none, none) →
      cache.find? (fun s => decide (s.ID = i)) = some r →
      ∃ srv, getServerByID c cache i = (some srv, none) ∧
        srv.ID = r.ID ∧ srv.Name = r.Name ∧
        srv.ServerType.map (fun t => t.Name) = some r.Typ ∧
        (srv.Datacenter.bind (fun d => d.Location)).map (fun l => l.Name) = some r.Zone ∧
        srv.Datacenter.map (fun d => d.Name) = some r.Region ∧
        srv.PublicNetIPv4IP = r.IP) := by
  constructor
  · intro n r hprim hfind
    refine ⟨serverOfRecord "" r, ?_, rfl, rfl, rfl, rfl, rfl, rfl⟩
    simp [getServerByName, hprim, hrobotGetServerByName_eq_find, hfind]
  · intro i r hprim hfind
    refine ⟨serverOfRecord NetworkZoneEUCentral r, ?_, rfl, rfl, rfl, rfl, rfl, rfl⟩
    simp [getServerByID, hprim, hrobotGetServerByID_eq_find, hfind]

/-- C4: when the primary source reports no server and no error for the key and no
record of the snapshot has that name (resp. number), `getServerByName` (resp.
`getServerByID`) returns a nil server together with `cloudprovider.InstanceNotFound`,
one and the same value for every key, client and snapshot. -/
theorem getServer_not_found (c : commonClient) (cache : List HrobotServer) :
    (∀ n : String, c.GetByName n = (none, none) → (∀ s ∈ cache, s.Name ≠ n) →
      getServerByName c cache n = (none, some GoError.InstanceNotFound)) ∧
    (∀ i : Int, c.GetByID i = (none, none) → (∀ s ∈ cache, s.ID ≠ i) →
      getServerByID c cache i = (none, some GoError.InstanceNotFound)) := by
  constructor
  · intro n hprim hno
    have hfind := find_none_of_no_match (p := fun s => s.Name = n) cache hno
    simp [getServerByName, hprim, hrobotGetServerByName_eq_find, hfind]
  · intro i hprim hno
    have hfind := find_none_of_no_match (p := fun s => s.ID = i) cache hno
    simp [getServerByID, hprim, hrobotGetServerByID_eq_find, hfind]

/-- Evaluation of `getServer_found_in_cache` on a snapshot of two records with one
name: the lookup by name gives the first record, the lookup by number 654 the second. -/
theorem getServer_found_in_cache_witness :
    (absentClient.GetByName "bm-1" = (none, none) ∧
      [sampleRecord, shadowedRecord].find? (fun s => decide (s.Name = "bm-1"))
        = some sampleRecord ∧
      ∃ srv, getServerByName absentClient [sampleRecord, shadowedRecord] "bm-1"
          = (some srv, none) ∧
        srv.ID = sampleRecord.ID ∧ srv.Name = sampleRecord.Name ∧
        srv.ServerType.map (fun t => t.Name) = some sampleRecord.Typ ∧
        (srv.Datacenter.bind (fun d => d.Location)).map (fun l => l.Name)
          = some sampleRecord.Zone ∧
        srv.Datacenter.map (fun d => d.Name) = some sampleRecord.Region ∧
        srv.PublicNetIPv4IP = sampleRecord.IP) ∧
    (absentClient.GetByID 654 = (none, none) ∧
      [sampleRecord, shadowedRecord].find? (fun s => decide (s.ID = 654))
        = some shadowedRecord ∧
      ∃ srv, getServerByID absentClient [sampleRecord, shadowedRecord] 654
          = (some srv, none) ∧
        srv.ID = shadowedRecord.ID ∧ srv.Name = shadowedRecord.Name ∧
        srv.ServerType.map (fun t => t.Name) = some shadowedRecord.Typ ∧
        (srv.Datacenter.bind (fun d => d.Location)).map (fun l => l.Name)
          = some shadowedRecord.Zone ∧
        srv.Datacenter.map (fun d => d.Name) = some shadowedRecord.Region ∧
        srv.PublicNetIPv4IP = shadowedRecord.IP) :=
  ⟨⟨rfl, by decide,
      (getServer_found_in_cache absentClient [sampleRecord, shadowedRecord]).1
        "bm-1" sampleRecord rfl (by decide)⟩,
    ⟨rfl, by decide,
      (getServer_found_in_cache absentClient [sampleRecord, shadowedRecord]).2
        654 shadowedRecord rfl (by decide)⟩⟩

/-- Evaluation of `getServer_not_found` on a snapshot that holds neither the name
`"bm-2"` nor the number 7. -/
theorem getServer_not_found_witness :
    (absentClient.GetByName "bm-2" = (none, none) ∧
      (∀ s ∈ [sampleRecord, shadowedRecord], s.Name ≠ "bm-2") ∧
      getServerByName absentClient [sampleRecord, shadowedRecord] "bm-2"
        = (none, some GoError.InstanceNotFound)) ∧
    (absentClient.GetByID 7 = (none, none) ∧
      (∀ s ∈ [sampleRecord, shadowedRecord], s.ID ≠ 7) ∧
      getServerByID absentClient [sampleRecord, shadowedRecord] 7
        = (none, some GoError.InstanceNotFound)) :=
  ⟨⟨rfl, by decide,
      (getServer_not_found absentClient [sampleRecord, shadowedRecord]).1 "bm-2" rfl
        (by decide)⟩,
    ⟨rfl, by decide,
      (getServer_not_found absentClient [sampleRecord, shadowedRecord]).2 7 rfl
        (by decide)⟩⟩

/-! ## Resolver: errors of the primary source -/

/-- C5: when the call to the primary source returns an error, `getServerByName` and
`getServerByID` return a nil server and an error that is not
`cloudprovider.InstanceNotFound`, and the result is the same under any two snapshots
of the cache, also ones that hold a record matching the key. -/
theorem getServer_primary_error_skips_cache (c : commonClient)
    (c1 c2 : List HrobotServer) :
    (∀ (n : String) (srv : Option Server) (e : GoError), c.GetByName n = (srv, some e) →
      getServerByName c c1 n = getServerByName c c2 n ∧
      (getServerByName c c1 n).1 = none ∧
      ∃ err, (getServerByName c c1 n).2 = some err ∧ err ≠ GoError.InstanceNotFound) ∧
    (∀ (i : Int) (srv : Option Server) (e : GoError), c.GetByID i = (srv, some e) →
      getServerByID c c1 i = getServerByID c c2 i ∧
      (getServerByID c c1 i).1 = none ∧
      ∃ err, (getServerByID c c1 i).2 = some err ∧ err ≠ GoError.InstanceNotFound) := by
  constructor
  · intro n srv e hprim
    have h : ∀ cache, getServerByName c cache n
        = (none, some (GoError.wrapf "hcloud/getServerByName" e)) := by
      intro cache
      simp [getServerByName, hprim]
    rw [h c1, h c2]
    exact ⟨rfl, rfl, _, rfl, by simp⟩
  · intro i srv e hprim
    have h : ∀ cache, getServerByID c cache i
        = (none, some (GoError.wrapf "hcloud/getServerByName" e)) := by
      intro cache
      simp [getServerByID, hprim]
    rw [h c1, h c2]
    exact ⟨rfl, rfl, _, rfl, by simp⟩

/-- Evaluation of `getServer_primary_error_skips_cache` with an empty snapshot and one
that holds a record matching the key; the error of the primary source is the sentinel
itself. -/
theorem getServer_primary_error_skips_cache_witness :
    ((failingClient GoError.InstanceNotFound).GetByName "bm-1"
        = (none, some GoError.InstanceNotFound) ∧
      getServerByName (failingClient GoError.InstanceNotFound) [] "bm-1"
        = getServerByName (failingClient GoError.InstanceNotFound) [sampleRecord] "bm-1" ∧
      (getServerByName (failingClient GoError.InstanceNotFound) [] "bm-1").1 = none ∧
      ∃ err, (getServerByName (failingClient GoError.InstanceNotFound) [] "bm-1").2
          = some err ∧ err ≠ GoError.InstanceNotFound) ∧
    ((failingClient GoError.InstanceNotFound).GetByID 321
        = (none, some GoError.InstanceNotFound) ∧
      getServerByID (failingClient GoError.InstanceNotFound) [] 321
        = getServerByID (failingClient GoError.InstanceNotFound) [sampleRecord] 321 ∧
      (getServerByID (failingClient GoError.InstanceNotFound) [] 321).1 = none ∧
      ∃ err, (getServerByID (failingClient GoError.InstanceNotFound) [] 321).2
          = some err ∧ err ≠ GoError.InstanceNotFound) :=
  ⟨⟨rfl, (getServer_primary_error_skips_cache (failingClient GoError.InstanceNotFound)
        [] [sampleRecord]).1 "bm-1" none GoError.InstanceNotFound rfl⟩,
    ⟨rfl, (getServer_primary_error_skips_cache (failingClient GoError.InstanceNotFound)
        [] [sampleRecord]).2 321 none GoError.InstanceNotFound rfl⟩⟩

/-- C9, as stated, fails: for the primary-source error with message `"timeout"` the
error that `getServerByName` and `getServerByID` hand back is another value, and its
message is `"hcloud/getServerByName: timeout"`. -/
theorem getServer_error_not_verbatim :
    (failingClient (GoError.api "timeout")).GetByName "bm-1"
        = (none, some (GoError.api "timeout")) ∧
      (getServerByName (failingClient (GoError.api "timeout")) [] "bm-1").2
        ≠ some (GoError.api "timeout") ∧
      (getServerByName (failingClient (GoError.api "timeout")) [] "bm-1").2.map GoError.Error
        = some "hcloud/getServerByName: timeout" ∧
      (getServerByID (failingClient (GoError.api "timeout")) [] 321).2
        ≠ some (GoError.api "timeout") ∧
      (getServerByID (failingClient (GoError.api "timeout")) [] 321).2.map GoError.Error
        = some "hcloud/getServerByName: timeout" := by
  refine ⟨rfl, ?_, ?_, ?_, ?_⟩ <;> decide

/-- C9, amended: when the call to the primary source returns the error `e`, the error
handed back is a new error that wraps `e`: `errors.Unwrap` of it is `e`, and its message
is an operation name, `": "` and the message of `e`; for `getServerByName` the operation
name is `"hcloud/getServerByName"`. -/
theorem getServer_error_wrapped (c : commonClient) (cache : List HrobotServer) :
    (∀ (n : String) (srv : Option Server) (e : GoError), c.GetByName n = (srv, some e) →
      ∃ err, getServerByName c cache n = (none, some err) ∧ err.Unwrap = some e ∧
        err.Error = "hcloud/getServerByName" ++ ": " ++ e.Error) ∧
    (∀ (i : Int) (srv : Option Server) (e : GoError), c.GetByID i = (srv, some e) →
      ∃ err op, getServerByID c cache i = (none, some err) ∧ err.Unwrap = some e ∧
        err.Error = op ++ ": " ++ e.Error) := by
  constructor
  · intro n srv e hprim
    refine ⟨GoError.wrapf "hcloud/getServerByName" e, ?_, rfl, rfl⟩
    simp [getServerByName, hprim]
  · intro i srv e hprim
    refine ⟨GoError.wrapf "hcloud/getServerByName" e, "hcloud/getServerByName", ?_, rfl, rfl⟩
    simp [getServerByID, hprim]

/-- Evaluation of `getServer_error_wrapped` for the error with message `"timeout"`. -/
theorem getServer_error_wrapped_witness :
    ((failingClient (GoError.api "timeout")).GetByName "bm-1"
        = (none, some (GoError.api "timeout")) ∧
      ∃ err, getServerByName (failingClient (GoError.api "timeout")) [sampleRecord] "bm-1"
          = (none, some err) ∧ err.Unwrap = some (GoError.api "timeout") ∧
        err.Error = "hcloud/getServerByName" ++ ": " ++ (GoError.api "timeout").Error) ∧
    ((failingClient (GoError.api "timeout")).GetByID 321
        = (none, some (GoError.api "timeout")) ∧
      ∃ err op, getServerByID (failingClient (GoError.api "timeout")) [sampleRecord] 321
          = (none, some err) ∧ err.Unwrap = some (GoError.api "timeout") ∧
        err.Error = op ++ ": " ++ (GoError.api "timeout").Error) :=
  ⟨⟨rfl, (getServer_error_wrapped (failingClient (GoError.api "timeout"))
        [sampleRecord]).1 "bm-1" none (GoError.api "timeout") rfl⟩,
    ⟨rfl, (getServer_error_wrapped (failingClient (GoError.api "timeout"))
        [sampleRecord]).2 321 none (GoError.api "timeout") rfl⟩⟩

/-! ## Resolver: network zone of a record of the cache -/

/-- C6 at a snapshot of one record: the server that `getServerByID` builds from the
record has the network zone `hcloud.NetworkZoneEUCentral`, the server that
`getServerByName` builds from the same record has the empty network zone. -/
theorem getServerByName_network_zone_unset :
    (getServerByID absentClient [sampleRecord] 321).1.bind
        (fun srv => (srv.Datacenter.bind (fun d => d.Location)).map (fun l => l.NetworkZone))
      = some NetworkZoneEUCentral ∧
    (getServerByName absentClient [sampleRecord] "bm-1").1.bind
        (fun srv => (srv.Datacenter.bind (fun d => d.Location)).map (fun l => l.NetworkZone))
      = some "" ∧
    "" ≠ NetworkZoneEUCentral := by
  refine ⟨?_, ?_, ?_⟩ <;> decide

/-! ## Refresher -/

theorem Split_head (s : List Char) (sep : Char) :
    ∃ pieces, Split s sep = s.takeWhile (fun c => decide (c ≠ sep)) :: pieces := by
  induction s with
  | nil => exact ⟨[], rfl⟩
  | cons c cs ih =>
    obtain ⟨pieces, hp⟩ := ih
    by_cases h : c = sep
    · exact ⟨Split cs sep, by simp [Split, h]⟩
    · exact ⟨pieces, by simp [Split, h, hp]⟩

theorem Split_index_zero (s : List Char) (sep : Char) :
    (Split s sep)[0]? = some (s.takeWhile (fun c => decide (c ≠ sep))) := by
  obtain ⟨pieces, hp⟩ := Split_head s sep
  simp [hp]

theorem hrobotServerOf_eq (ext : Externals) (s : RobotServer) :
    hrobotServerOf ext s = some
      { ID := s.ServerNumber
        Name := s.ServerName
        Typ := s.Product
        Zone := String.mk (ToLower ext.caseTable (s.Dc.data.takeWhile (fun c => decide (c ≠ '-'))))
        Region := String.mk (ToLower ext.caseTable s.Dc.data)
        IP := ext.ParseIP s.ServerIP } := by
  simp only [hrobotServerOf, Split_index_zero]

theorem collectServers_eq (ext : Externals) (servers : List RobotServer)
    (hservers : List HrobotServer) :
    collectServers ext servers hservers = some (hservers ++ servers.map (fun s =>
      { ID := s.ServerNumber
        Name := s.ServerName
        Typ := s.Product
        Zone := String.mk
          (ToLower ext.caseTable (s.Dc.data.takeWhile (fun c => decide (c ≠ '-'))))
        Region := String.mk (ToLower ext.caseTable s.Dc.data)
        IP := ext.ParseIP s.ServerIP })) := by
  induction servers generalizing hservers with
  | nil => simp [collectServers]
  | cons s rest ih =>
    simp only [collectServers, hrobotServerOf_eq, ih, List.append_assoc, List.singleton_append,
      List.map_cons]

/-- C7: whatever the datacenter codes of the listing (the empty string and a code
without hyphen included), a cycle of `readHrobotServers` does not fail on the index into
the split of a code, and the cache it leaves holds, in the order of the listing, one
record for each server, whose zone is `strings.ToLower` of the part of the code before
its first hyphen (of all of the code when it has none) and whose region is
`strings.ToLower` of the code, with the number, name, product and parsed address of the
server; the loop body builds that same record from one server.  For the code
`"fsn1-dc8"` the zone of the record in the cache is `"fsn1"` and its region
`"fsn1-dc8"`, for the empty code both are empty, for `"HEL1"` both are `"hel1"`. -/
theorem readHrobotServers_zone_region (ext : Externals) :
    (∀ (listing : List RobotServer × Option GoError) (cache : List HrobotServer),
      readHrobotServers ext listing cache = some (listing.1.map (fun s =>
        { ID := s.ServerNumber
          Name := s.ServerName
          Typ := s.Product
          Zone := String.mk
            (ToLower ext.caseTable (s.Dc.data.takeWhile (fun c => decide (c ≠ '-'))))
          Region := String.mk (ToLower ext.caseTable s.Dc.data)
          IP := ext.ParseIP s.ServerIP }))) ∧
    (∀ s : RobotServer, ∃ r, hrobotServerOf ext s = some r ∧
      r.Zone = String.mk
        (ToLower ext.caseTable (s.Dc.data.takeWhile (fun c => decide (c ≠ '-')))) ∧
      r.Region = String.mk (ToLower ext.caseTable s.Dc.data)) ∧
    (∀ (ip name product : String) (number : Int) (err : Option GoError)
        (cache : List HrobotServer),
      readHrobotServers ext
          ([{ ServerIP := ip, ServerNumber := number, ServerName := name,
              Product := product, Dc := "fsn1-dc8" }], err) cache
        = some [{ ID := number, Name := name, Typ := product, Zone := "fsn1",
                  Region := "fsn1-dc8", IP := ext.ParseIP ip }]) ∧
    (∀ (ip name product : String) (number : Int) (err : Option GoError)
        (cache : List HrobotServer),
      readHrobotServers ext
          ([{ ServerIP := ip, ServerNumber := number, ServerName := name,
              Product := product, Dc := "" }], err) cache
        = some [{ ID := number, Name := name, Typ := product, Zone := "",
                  Region := "", IP := ext.ParseIP ip }]) ∧
    (∀ (ip name product : String) (number : Int) (err : Option GoError)
        (cache : List HrobotServer),
      readHrobotServers ext
          ([{ ServerIP := ip, ServerNumber := number, ServerName := name,
              Product := product, Dc := "HEL1" }], err) cache
        = some [{ ID := number, Name := name, Typ := product, Zone := "hel1",
                  Region := "hel1", IP := ext.ParseIP ip }]) := by
  have hcycle : ∀ (listing : List RobotServer × Option GoError) (cache : List HrobotServer),
      readHrobotServers ext listing cache = some (listing.1.map (fun s =>
        { ID := s.ServerNumber
          Name := s.ServerName
          Typ := s.Product
          Zone := String.mk
            (ToLower ext.caseTable (s.Dc.data.takeWhile (fun c => decide (c ≠ '-'))))
          Region := String.mk (ToLower ext.caseTable s.Dc.data)
          IP := ext.ParseIP s.ServerIP })) := by
    intro listing cache
    rw [readHrobotServers, collectServers_eq]
    rfl
  refine ⟨hcycle, fun s => ⟨_, hrobotServerOf_eq ext s, rfl, rfl⟩, ?_, ?_, ?_⟩
  · intro ip name product number err cache
    rw [hcycle]
    rfl
  · intro ip name product number err cache
    rw [hcycle]
    rfl
  · intro ip name product number err cache
    rw [hcycle]
    rfl

/-- C1 at a failing poll: when `ServerGetList` returns an error (and, with it, no
servers), a cycle of `readHrobotServers` leaves the cache empty whatever it held; a name
and a number that the resolver found in the cache before the cycle are reported as
`cloudprovider.InstanceNotFound` after it. -/
theorem readHrobotServers_error_empties_cache (ext : Externals) (e : GoError) :
    (∀ cache, readHrobotServers ext ([], some e) cache = some []) ∧
    readHrobotServers ext ([], some e) [sampleRecord] ≠ some [sampleRecord] ∧
    (getServerByName absentClient [sampleRecord] "bm-1").2 = none ∧
    (getServerByID absentClient [sampleRecord] 321).2 = none ∧
    (∀ after, readHrobotServers ext ([], some e) [sampleRecord] = some after →
      getServerByName absentClient after "bm-1" = (none, some GoError.InstanceNotFound) ∧
      getServerByID absentClient after 321 = (none, some GoError.InstanceNotFound)) := by
  refine ⟨fun _ => rfl, by simp [readHrobotServers, collectServers], by decide, by decide, ?_⟩
  intro after h
  have : after = [] := by
    simp [readHrobotServers, collectServers] at h
    exact h
  subst this
  exact ⟨rfl, rfl⟩

/-! ## `strconv.Atoi` reads exactly the decimal numerals that fit an `int` -/

theorem le_digitsValueFrom (ds : List Char) (n : Nat) : n ≤ digitsValueFrom ds n := by
  induction ds generalizing n with
  | nil => exact Nat.le_refl _
  | cons c cs ih =>
    have := ih (n * 10 + (c.toNat - '0'.toNat))
    rw [digitsValueFrom]
    omega

theorem parseUintLoop_ok_iff (n u : Nat) (ds : List Char) (hn : n ≤ maxUint64) :
    parseUintLoop n ds = (u, none) ↔
      (∀ c ∈ ds, IsDigit c) ∧ u = digitsValueFrom ds n ∧ u ≤ maxUint64 := by
  induction ds generalizing n with
  | nil =>
    simp only [parseUintLoop, digitsValueFrom, List.not_mem_nil, false_implies, implies_true,
      true_and, Prod.mk.injEq, and_true]
    constructor
    · intro h; subst h; exact ⟨rfl, hn⟩
    · intro h; exact h.1.symm
  | cons c cs ih =>
    have hmono := le_digitsValueFrom cs (n * 10 + (c.toNat - '0'.toNat))
    simp only [maxUint64] at hn
    by_cases hd : IsDigit c
    · have hd' := hd
      simp only [IsDigit, Char.reduceToNat] at hd'
      simp only [parseUintLoop, hd, and_self, ↓reduceIte, List.mem_cons, forall_eq_or_imp,
        true_and, digitsValueFrom, maxUint64, toUint64, Char.reduceToNat]
      simp only [Char.reduceToNat] at hmono
      rw [if_pos hd']
      simp only [ge_iff_le, gt_iff_lt]
      have hd10 : ¬ (10 ≤ c.toNat - 48) := by omega
      rw [if_neg hd10]
      norm_num at hn ⊢
      by_cases hcut : 1844674407370955162 ≤ n
      · rw [if_pos hcut]
        simp only [Prod.mk.injEq, reduceCtorEq, and_false, false_iff]
        rintro ⟨_, hu, hle⟩
        omega
      · rw [if_neg hcut]
        have h10 : n * 10 % 18446744073709551616 = n * 10 := by omega
        rw [h10]
        by_cases hov : n * 10 + (c.toNat - 48) < 18446744073709551616
        · have h1 : (n * 10 + (c.toNat - 48)) % 18446744073709551616
              = n * 10 + (c.toNat - 48) := Nat.mod_eq_of_lt hov
          rw [h1]
          have hno : ¬ (n * 10 + (c.toNat - 48) < n * 10 ∨
              18446744073709551615 < n * 10 + (c.toNat - 48)) := by omega
          rw [if_neg hno]
          have := ih (n * 10 + (c.toNat - 48)) (by simp only [maxUint64]; omega)
          simp only [maxUint64, Nat.reducePow, Nat.reduceSub] at this
          rw [this]
          exact ⟨fun h => ⟨⟨hd, h.1⟩, h.2⟩, fun h => ⟨h.1.2, h.2⟩⟩
        · have hyes : (n * 10 + (c.toNat - 48)) % 18446744073709551616 < n * 10 ∨
              18446744073709551615 < (n * 10 + (c.toNat - 48)) % 18446744073709551616 := by
            omega
          rw [if_pos hyes]
          simp only [Prod.mk.injEq, reduceCtorEq, and_false, false_iff]
          rintro ⟨_, hu, hle⟩
          omega
    · simp only [List.mem_cons, forall_eq_or_imp, hd, false_and, iff_false]
      rw [parseUintLoop]
      have hd' : ¬ (48 ≤ c.toNat ∧ c.toNat ≤ 57) := by simpa only [IsDigit, Char.reduceToNat] using hd
      simp only [Char.reduceToNat, if_neg hd']
      split
      · simp
      · rename_i d hdig
        split at hdig
        · simp only [Option.some.injEq] at hdig
          have : d ≥ 10 := by omega
          simp [this]
        · simp at hdig

theorem ParseUint_ok_iff (body : List Char) (u : Nat) :
    ParseUint body = (u, none) ↔
      body ≠ [] ∧ (∀ c ∈ body, IsDigit c) ∧ u = digitsValue body ∧ u ≤ maxUint64 := by
  unfold ParseUint
  by_cases hb : body = []
  · simp [hb]
  · rw [if_neg hb, parseUintLoop_ok_iff 0 u body (Nat.zero_le _)]
    simp only [digitsValue, ne_eq, hb, not_false_eq_true, true_and]

theorem not_isDecimalInt_nil (v : Int) : ¬ IsDecimalInt [] v := by
  rintro ⟨sign, digits, hs, _, hne, _⟩
  have := congrArg List.length hs
  simp only [List.length_nil, List.length_append] at this
  exact hne (List.length_eq_zero.mp (by omega))

theorem isDecimalInt_plus (cs : List Char) (v : Int) :
    IsDecimalInt ('+' :: cs) v ↔
      cs ≠ [] ∧ (∀ c ∈ cs, IsDigit c) ∧ v = (digitsValue cs : Int) := by
  constructor
  · rintro ⟨sign, digits, hs, hsign, hne, hdig, hv⟩
    rcases hsign with rfl | rfl | rfl
    · simp only [List.nil_append] at hs
      subst hs
      exact absurd (hdig '+' (List.mem_cons_self _ _)) (by decide)
    · simp only [List.singleton_append, List.cons.injEq, true_and] at hs
      subst hs
      exact ⟨hne, hdig, by simpa using hv⟩
    · simp only [List.singleton_append, List.cons.injEq] at hs
      exact absurd hs.1 (by decide)
  · rintro ⟨hne, hdig, hv⟩
    exact ⟨['+'], cs, rfl, Or.inr (Or.inl rfl), hne, hdig, by simpa using hv⟩

theorem isDecimalInt_minus (cs : List Char) (v : Int) :
    IsDecimalInt ('-' :: cs) v ↔
      cs ≠ [] ∧ (∀ c ∈ cs, IsDigit c) ∧ v = -(digitsValue cs : Int) := by
  constructor
  · rintro ⟨sign, digits, hs, hsign, hne, hdig, hv⟩
    rcases hsign with rfl | rfl | rfl
    · simp only [List.nil_append] at hs
      subst hs
      exact absurd (hdig '-' (List.mem_cons_self _ _)) (by decide)
    · simp only [List.singleton_append, List.cons.injEq] at hs
      exact absurd hs.1 (by decide)
    · simp only [List.singleton_append, List.cons.injEq, true_and] at hs
      subst hs
      exact ⟨hne, hdig, by simpa using hv⟩
  · rintro ⟨hne, hdig, hv⟩
    exact ⟨['-'], cs, rfl, Or.inr (Or.inr rfl), hne, hdig, by simpa using hv⟩

theorem isDecimalInt_unsigned (c : Char) (cs : List Char) (v : Int)
    (hplus : c ≠ '+') (hminus : c ≠ '-') :
    IsDecimalInt (c :: cs) v ↔
      (∀ x ∈ c :: cs, IsDigit x) ∧ v = (digitsValue (c :: cs) : Int) := by
  constructor
  · rintro ⟨sign, digits, hs, hsign, hne, hdig, hv⟩
    rcases hsign with rfl | rfl | rfl
    · simp only [List.nil_append] at hs
      subst hs
      exact ⟨hdig, by simpa using hv⟩
    · simp only [List.singleton_append, List.cons.injEq] at hs
      exact absurd hs.1 hplus
    · simp only [List.singleton_append, List.cons.injEq] at hs
      exact absurd hs.1 hminus
  · rintro ⟨hdig, hv⟩
    exact ⟨[], c :: cs, rfl, Or.inl rfl, List.cons_ne_nil _ _, hdig, by simpa using hv⟩

theorem toInt64_of_fits (x : Int) (h : FitsInt x) : toInt64 x = x := by
  simp only [FitsInt] at h
  simp only [toInt64]
  norm_num at h ⊢
  omega

theorem ParseInt_ok_iff_aux (c : Char) (cs body : List Char) (v : Int)
    (hbody : body = if c = '+' then cs else if c = '-' then cs else c :: cs) :
    ParseInt (c :: cs) = (v, none) ↔
      body ≠ [] ∧ (∀ x ∈ body, IsDigit x) ∧
      v = (if c = '-' then -(digitsValue body : Int) else (digitsValue body : Int)) ∧
      FitsInt v := by
  rw [ParseInt]
  simp only [← hbody]
  rcases hpu : ParseUint body with ⟨un, _ | e⟩
  · obtain ⟨hne, hdig, hun, hmax⟩ := (ParseUint_ok_iff body un).mp hpu
    subst hun
    simp only [ne_eq, hne, not_false_eq_true, true_and]
    have hdig' : (∀ x ∈ body, IsDigit x) ↔ True := iff_true_intro hdig
    rw [hdig', true_and]
    simp only [maxUint64] at hmax
    generalize digitsValue body = dv at hmax ⊢
    simp only [FitsInt, toInt64]
    norm_num at hmax ⊢
    by_cases hneg : c = '-'
    · simp only [hneg, not_true_eq_false, false_and, ↓reduceIte, true_and]
      split_ifs with hbig
      · simp only [Prod.mk.injEq, reduceCtorEq, and_false, false_iff]
        omega
      · simp only [Prod.mk.injEq, and_true]
        omega
    · simp only [hneg, not_false_eq_true, true_and, false_and, ↓reduceIte]
      split_ifs with hbig
      · simp only [Prod.mk.injEq, reduceCtorEq, and_false, false_iff]
        omega
      · simp only [Prod.mk.injEq, and_true]
        omega
  · have hfail : ¬ (body ≠ [] ∧ (∀ x ∈ body, IsDigit x) ∧ digitsValue body ≤ maxUint64) := by
      rintro ⟨h1, h2, h3⟩
      have := (ParseUint_ok_iff body (digitsValue body)).mpr ⟨h1, h2, rfl, h3⟩
      rw [hpu] at this
      simp at this
    have hlhs : ∀ r : Int × Option NumError, r.2 ≠ none → (r = (v, none) ↔ False) := by
      intro r hr
      simp only [iff_false]
      rintro rfl
      exact hr rfl
    rw [hlhs]
    · simp only [false_iff]
      rintro ⟨h1, h2, hv, hfit⟩
      apply hfail
      refine ⟨h1, h2, ?_⟩
      simp only [FitsInt] at hfit
      simp only [maxUint64]
      norm_num at hfit ⊢
      split_ifs at hv <;> omega
    · cases e
      · simp
      · simp only []
        split_ifs <;> simp

theorem ParseInt_ok_iff (s : List Char) (v : Int) :
    ParseInt s = (v, none) ↔ IsDecimalInt s v ∧ FitsInt v := by
  cases s with
  | nil =>
    simp only [ParseInt, Prod.mk.injEq, reduceCtorEq, and_false, false_iff, not_and]
    intro h
    exact absurd h (not_isDecimalInt_nil v)
  | cons c cs =>
    by_cases hplus : c = '+'
    · subst hplus
      rw [ParseInt_ok_iff_aux '+' cs cs v (by simp), isDecimalInt_plus]
      simp only [Char.reduceEq, ↓reduceIte, and_assoc]
    · by_cases hminus : c = '-'
      · subst hminus
        rw [ParseInt_ok_iff_aux '-' cs cs v (by simp), isDecimalInt_minus]
        simp only [↓reduceIte, and_assoc]
      · rw [ParseInt_ok_iff_aux c cs (c :: cs) v (by simp [hplus, hminus]),
          isDecimalInt_unsigned c cs v hplus hminus]
        simp only [ne_eq, reduceCtorEq, not_false_eq_true, hminus, ↓reduceIte, true_and,
          and_assoc]

theorem atoiFastLoop_of_digits (ds : List Char) (n : Nat) (hdig : ∀ c ∈ ds, IsDigit c)
    (hlt : digitsValueFrom ds n < 2 ^ 63) :
    atoiFastLoop (n : Int) ds = some (digitsValueFrom ds n : Int) := by
  induction ds generalizing n with
  | nil => rfl
  | cons c cs ih =>
    have hc : IsDigit c := hdig c (List.mem_cons_self _ _)
    have hmono := le_digitsValueFrom cs (n * 10 + (c.toNat - '0'.toNat))
    rw [digitsValueFrom] at hlt ⊢
    rw [atoiFastLoop, if_pos hc]
    have hfit : toInt64 ((n : Int) * 10 + ((c.toNat - '0'.toNat : Nat) : Int))
        = ((n * 10 + (c.toNat - '0'.toNat) : Nat) : Int) := by
      rw [toInt64_of_fits]
      · push_cast
        rfl
      · simp only [FitsInt]
        norm_num at hlt ⊢
        omega
    rw [hfit]
    exact ih _ (fun x hx => hdig x (List.mem_cons_of_mem _ hx)) hlt

theorem atoiFastLoop_none (ds : List Char) (x : Int) (hdig : ¬ ∀ c ∈ ds, IsDigit c) :
    atoiFastLoop x ds = none := by
  induction ds generalizing x with
  | nil => exact absurd (fun c hc => absurd hc (List.not_mem_nil c)) hdig
  | cons c cs ih =>
    rw [atoiFastLoop]
    by_cases hc : IsDigit c
    · rw [if_pos hc]
      apply ih
      intro hcs
      apply hdig
      intro y hy
      rcases List.mem_cons.mp hy with rfl | hy
      · exact hc
      · exact hcs y hy
    · rw [if_neg hc]

theorem digitsValueFrom_lt (ds : List Char) (n : Nat) (hdig : ∀ c ∈ ds, IsDigit c) :
    digitsValueFrom ds n < (n + 1) * 10 ^ ds.length := by
  induction ds generalizing n with
  | nil => simp [digitsValueFrom]
  | cons c cs ih =>
    have hc : IsDigit c := hdig c (List.mem_cons_self _ _)
    simp only [IsDigit, Char.reduceToNat] at hc
    rw [digitsValueFrom]
    have h1 := ih (n * 10 + (c.toNat - '0'.toNat)) (fun x hx => hdig x (List.mem_cons_of_mem _ hx))
    have h2 : n * 10 + (c.toNat - '0'.toNat) + 1 ≤ (n + 1) * 10 := by
      simp only [Char.reduceToNat]
      omega
    calc digitsValueFrom cs (n * 10 + (c.toNat - '0'.toNat))
        < (n * 10 + (c.toNat - '0'.toNat) + 1) * 10 ^ cs.length := h1
      _ ≤ (n + 1) * 10 * 10 ^ cs.length := Nat.mul_le_mul_right _ h2
      _ = (n + 1) * 10 ^ (c :: cs).length := by
        rw [List.length_cons, pow_succ]
        ring

theorem length_le_byteLen (s : List Char) : s.length ≤ byteLen s := by
  induction s with
  | nil => simp [byteLen]
  | cons c cs ih =>
    have := Char.utf8Size_pos c
    simp only [byteLen, List.map_cons, List.sum_cons, List.length_cons] at ih ⊢
    omega

theorem digitsValue_lt_of_short (ds : List Char) (hdig : ∀ c ∈ ds, IsDigit c)
    (hlen : ds.length ≤ 18) : digitsValue ds < 10 ^ 18 := by
  have h := digitsValueFrom_lt ds 0 hdig
  have hpow : 10 ^ ds.length ≤ 10 ^ 18 := Nat.pow_le_pow_right (by norm_num) hlen
  simp only [digitsValue]
  omega

theorem Atoi_fast_ok_iff_aux (c : Char) (cs body : List Char) (v : Int)
    (hbody : body = if c = '-' ∨ c = '+' then cs else c :: cs)
    (hlen : 0 < byteLen (c :: cs) ∧ byteLen (c :: cs) < 19) :
    Atoi (c :: cs) = (v, none) ↔
      body ≠ [] ∧ (∀ x ∈ body, IsDigit x) ∧
      v = (if c = '-' then -(digitsValue body : Int) else (digitsValue body : Int)) ∧
      FitsInt v := by
  have hshort : body.length ≤ 18 := by
    have h1 := length_le_byteLen (c :: cs)
    have h2 : body.length ≤ (c :: cs).length := by
      rw [hbody]
      split_ifs <;> simp
    omega
  rw [Atoi, if_pos hlen]
  simp only [← hbody]
  by_cases hne : body = []
  · simp [hne]
  · have hlen1 : ¬ body.length < 1 := by
      have := List.length_pos.mpr hne
      omega
    rw [if_neg hlen1]
    by_cases hdig : ∀ x ∈ body, IsDigit x
    · have hlt := digitsValue_lt_of_short body hdig hshort
      have hfast : atoiFastLoop 0 body = some (digitsValue body : Int) := by
        have := atoiFastLoop_of_digits body 0 hdig (by
          simp only [digitsValue] at hlt
          norm_num at hlt ⊢
          omega)
        simpa [digitsValue] using this
      rw [hfast]
      have hdig' : (∀ x ∈ body, IsDigit x) ↔ True := iff_true_intro hdig
      simp only [ne_eq, hne, not_false_eq_true, true_and, hdig']
      generalize digitsValue body = dv at hlt ⊢
      simp only [FitsInt, toInt64]
      norm_num at hlt ⊢
      by_cases hneg : c = '-'
      · simp only [hneg, ↓reduceIte, Prod.mk.injEq, and_true]
        omega
      · simp only [hneg, ↓reduceIte, Prod.mk.injEq, and_true]
        omega
    · rw [atoiFastLoop_none body 0 hdig]
      simp [hdig]

theorem Atoi_ok_iff (s : List Char) (v : Int) :
    Atoi s = (v, none) ↔ IsDecimalInt s v ∧ FitsInt v := by
  by_cases hlen : 0 < byteLen s ∧ byteLen s < 19
  · cases s with
    | nil => simp [byteLen] at hlen
    | cons c cs =>
      by_cases hplus : c = '+'
      · subst hplus
        rw [Atoi_fast_ok_iff_aux '+' cs cs v (by simp) hlen, isDecimalInt_plus]
        simp only [Char.reduceEq, ↓reduceIte, and_assoc]
      · by_cases hminus : c = '-'
        · subst hminus
          rw [Atoi_fast_ok_iff_aux '-' cs cs v (by simp) hlen, isDecimalInt_minus]
          simp only [↓reduceIte, and_assoc]
        · rw [Atoi_fast_ok_iff_aux c cs (c :: cs) v (by simp [hplus, hminus]) hlen,
            isDecimalInt_unsigned c cs v hplus hminus]
          simp only [ne_eq, reduceCtorEq, not_false_eq_true, hminus, ↓reduceIte, true_and,
            and_assoc]
  · rw [Atoi.eq_def, if_neg hlen]
    exact ParseInt_ok_iff s v

/-! ## Provider identifier and polling period -/

set_option maxRecDepth 100000

theorem providerPrefix_eq : providerName ++ "://" = "hcloud://" := by decide

theorem providerIDToServerID_ok_iff_Atoi (providerID : String) (id : Int) :
    providerIDToServerID providerID = (id, none) ↔
      HasPrefix providerID.data "hcloud://".data = true ∧
      IsDecimalInt (ReplaceAll providerID.data "hcloud://".data []) id ∧ FitsInt id := by
  rw [providerIDToServerID]
  simp only [providerPrefix_eq]
  by_cases hpre : HasPrefix providerID.data "hcloud://".data = true
  · simp only [hpre, Bool.not_true, Bool.false_eq_true, ↓reduceIte, true_and]
    by_cases hempty : ReplaceAll providerID.data "hcloud://".data [] = []
    · simp only [hempty, ↓reduceIte, Prod.mk.injEq, reduceCtorEq, and_false, false_iff, not_and]
      intro h
      exact absurd h (not_isDecimalInt_nil id)
    · rw [if_neg hempty, ← Atoi_ok_iff]
      rcases hA : Atoi (ReplaceAll providerID.data "hcloud://".data []) with ⟨n, _ | e⟩
      · simp
      · simp
  · simp [hpre]

theorem replaceScan_digits (digits : List Char) (hdig : ∀ c ∈ digits, IsDigit c) :
    replaceScan "hcloud://".data [] 0 digits = digits := by
  induction digits with
  | nil => rfl
  | cons c cs ih =>
    have hc : c ≠ 'h' := by
      rintro rfl
      exact absurd (hdig 'h' (List.mem_cons_self _ _)) (by decide)
    have hnot : List.isPrefixOf "hcloud://".data (c :: cs) = false := by
      have : "hcloud://".data = 'h' :: "cloud://".data := by decide
      rw [this, List.isPrefixOf]
      simp [Ne.symm hc]
    rw [replaceScan, hnot]
    simp only [Bool.false_eq_true, ↓reduceIte, List.cons.injEq, true_and]
    exact ih (fun x hx => hdig x (List.mem_cons_of_mem _ hx))

theorem ReplaceAll_prefix_digits (digits : List Char) (hdig : ∀ c ∈ digits, IsDigit c) :
    ReplaceAll ("hcloud://".data ++ digits) "hcloud://".data [] = digits := by
  have hdata : "hcloud://".data = ['h', 'c', 'l', 'o', 'u', 'd', ':', '/', '/'] := by decide
  have hstart : replaceScan "hcloud://".data [] 0 ("hcloud://".data ++ digits)
      = replaceScan "hcloud://".data [] 0 digits := by
    have hpre : List.isPrefixOf "hcloud://".data ("hcloud://".data ++ digits) = true := by
      simp
    have hlen : "hcloud://".data.length - 1 = 8 := by decide
    conv_lhs => rw [hdata]
    simp only [List.cons_append, List.nil_append]
    rw [replaceScan]
    rw [hdata] at hpre
    simp only [List.cons_append, List.nil_append] at hpre
    rw [if_pos hpre, hlen]
    simp only [replaceScan, List.nil_append]
  rw [ReplaceAll, hstart, replaceScan_digits digits hdig]

/-- C2, as stated, fails in both directions: the prefix `"hcloud://"` followed by `-5`
is accepted with the identifier `-5` and `"hcloud://hcloud://5"` with the identifier `5`,
though neither is the prefix followed by a run of decimal digits; `"hcloud://99999999999999999999"` is
the prefix followed by a run of decimal digits and is rejected. -/
theorem providerIDToServerID_not_prefix_digits :
    (providerIDToServerID "hcloud://-5" = (-5, none) ∧
      ¬ ∃ digits : List Char, "hcloud://-5".data = "hcloud://".data ++ digits ∧
        digits ≠ [] ∧ ∀ c ∈ digits, IsDigit c) ∧
    (providerIDToServerID "hcloud://hcloud://5" = (5, none) ∧
      ¬ ∃ digits : List Char, "hcloud://hcloud://5".data = "hcloud://".data ++ digits ∧
        digits ≠ [] ∧ ∀ c ∈ digits, IsDigit c) ∧
    ((providerIDToServerID "hcloud://99999999999999999999").2 ≠ none ∧
      ∃ digits : List Char,
        "hcloud://99999999999999999999".data = "hcloud://".data ++ digits ∧
        digits ≠ [] ∧ ∀ c ∈ digits, IsDigit c) := by
  refine ⟨⟨by decide, ?_⟩, ⟨by decide, ?_⟩, ⟨by decide, ?_⟩⟩
  · rintro ⟨digits, hs, _, hdig⟩
    have hshape : "hcloud://-5".data = "hcloud://".data ++ "-5".data := by decide
    rw [hshape] at hs
    have hd := List.append_cancel_left hs
    subst hd
    exact absurd (hdig '-' (by decide)) (by decide)
  · rintro ⟨digits, hs, _, hdig⟩
    have hshape : "hcloud://hcloud://5".data = "hcloud://".data ++ "hcloud://5".data := by
      decide
    rw [hshape] at hs
    have hd := List.append_cancel_left hs
    subst hd
    exact absurd (hdig 'h' (by decide)) (by decide)
  · exact ⟨"99999999999999999999".data, by decide, by decide, by decide⟩

/-- C2, amended: `providerIDToServerID(s)` returns the identifier `id` with a nil error
if and only if `s` starts with `"hcloud://"` and what is left of `s` after every
occurrence of `"hcloud://"` is removed is a decimal integer numeral (an optional sign
`+` or `-`, then a non-empty run of decimal digits) whose value is `id` and fits a 64
bit `int`.  So every `"hcloud://"` followed by a non-empty run of decimal digits with a
value below `2^63` is accepted with that value; `"hcloud://12345"` gives `12345`, and
`"other://12345"`, `"hcloud://"` and `"hcloud://abc"` are rejected. -/
theorem providerIDToServerID_accepts :
    (∀ (providerID : String) (id : Int),
      providerIDToServerID providerID = (id, none) ↔
        HasPrefix providerID.data "hcloud://".data = true ∧
        IsDecimalInt (ReplaceAll providerID.data "hcloud://".data []) id ∧ FitsInt id) ∧
    (∀ digits : List Char, digits ≠ [] → (∀ c ∈ digits, IsDigit c) →
      digitsValue digits < 2 ^ 63 →
      providerIDToServerID (String.mk ("hcloud://".data ++ digits))
        = ((digitsValue digits : Int), none)) ∧
    providerIDToServerID "hcloud://12345" = (12345, none) ∧
    (providerIDToServerID "other://12345").2 ≠ none ∧
    (providerIDToServerID "hcloud://").2 ≠ none ∧
    (providerIDToServerID "hcloud://abc").2 ≠ none := by
  refine ⟨providerIDToServerID_ok_iff_Atoi, ?_, by decide, by decide, by decide, by decide⟩
  intro digits hne hdig hlt
  rw [providerIDToServerID_ok_iff_Atoi]
  refine ⟨by simp [HasPrefix], ?_, ?_⟩
  · rw [ReplaceAll_prefix_digits digits hdig]
    exact ⟨[], digits, rfl, Or.inl rfl, hne, hdig, by simp⟩
  · simp only [FitsInt]
    norm_num at hlt ⊢
    omega

/-- Evaluation of `providerIDToServerID_accepts` at the prefix followed by `-42`, whose
remainder is the numeral `-42`, and at the digits `"42"`. -/
theorem providerIDToServerID_accepts_witness :
    (HasPrefix "hcloud://-42".data "hcloud://".data = true ∧
      IsDecimalInt (ReplaceAll "hcloud://-42".data "hcloud://".data []) (-42) ∧
      FitsInt (-42) ∧
      providerIDToServerID "hcloud://-42" = (-42, none)) ∧
    ("42".data ≠ [] ∧ (∀ c ∈ "42".data, IsDigit c) ∧ digitsValue "42".data < 2 ^ 63 ∧
      providerIDToServerID (String.mk ("hcloud://".data ++ "42".data))
        = ((digitsValue "42".data : Int), none)) :=
  have hnum : IsDecimalInt (ReplaceAll "hcloud://-42".data "hcloud://".data []) (-42) :=
    ⟨['-'], "42".data, by decide, Or.inr (Or.inr rfl), by decide, by decide, by decide⟩
  have hfit : FitsInt (-42) := by
    simp only [FitsInt]
    norm_num
  ⟨⟨by decide, hnum, hfit,
      (providerIDToServerID_accepts.1 "hcloud://-42" (-42)).mpr ⟨by decide, hnum, hfit⟩⟩,
    ⟨by decide, by decide, by decide,
      providerIDToServerID_accepts.2.1 "42".data (by decide) (by decide) (by decide)⟩⟩

/-- C8 at settings that are no positive integer: with `HROBOT_PERIOD` set to `"abc"`
the polling period that `newCloud` sets is `0`, the value that `strconv.Atoi` returns
beside its discarded error; with `"0"` it is `0` and with `"-5"` it is `-5`; none of
them is the 180 seconds that the branch for an unset or empty setting assigns.  A
positive setting such as `"60"` gives its number. -/
theorem newCloud_hrobotPeriod_no_fallback :
    newCloud_hrobotPeriod (fun key => if key = "HROBOT_PERIOD" then some "abc" else none) = 0 ∧
    (Atoi "abc".data).2 = some NumError.ErrSyntax ∧
    newCloud_hrobotPeriod (fun key => if key = "HROBOT_PERIOD" then some "0" else none) = 0 ∧
    newCloud_hrobotPeriod (fun key => if key = "HROBOT_PERIOD" then some "-5" else none) = -5 ∧
    (0 : Int) ≠ 180 ∧ (-5 : Int) ≠ 180 ∧
    newCloud_hrobotPeriod (fun _ => none) = 180 ∧
    newCloud_hrobotPeriod (fun key => if key = "HROBOT_PERIOD" then some "" else none) = 180 ∧
    newCloud_hrobotPeriod (fun key => if key = "HROBOT_PERIOD" then some "60" else none) = 60 ∧
    hrobotPeriod = 180 := by
  refine ⟨?_, ?_, ?_, ?_, ?_, ?_, ?_, ?_, ?_, ?_⟩ <;> decide

end Hcloud
